import Mathlib

/-!
# Verification of the OpenSCAD `Value` core (value.cc / value.h)

Shallow embedding of the dynamic value model of the OpenSCAD expression
language: the `Value` discriminated union, `RangeType`, UTF-8 strings,
vectors, function values, and the arithmetic / comparison / indexing /
formatting operations defined on them.

Doubles are embedded as an idealized numeric domain `Dbl`: exact rationals
(an integer numerator over a positive natural denominator, compared by
cross-multiplication) plus the IEEE special values NaN and ±infinity.
Finite arithmetic is exact (no rounding / overflow), while the special
values follow IEEE rules; the `std::nextafter` nudge in
`RangeType::numValues` (which only compensates for floating rounding,
absent from the exact model) therefore truncates to the plain floor.
-/

namespace OpenSCAD

/-- An exact rational `n / d`.  Every `Q` built by the operations below has
`d > 0`; values are not normalized, and all comparisons cross-multiply. -/
structure Q where
  n : ℤ
  d : ℕ
deriving DecidableEq, Repr

namespace Q

/-- The rational `i / 1`. -/
def ofInt (i : ℤ) : Q := ⟨i, 1⟩

def neg (a : Q) : Q := ⟨-a.n, a.d⟩

def add (a b : Q) : Q := ⟨a.n * b.d + b.n * a.d, a.d * b.d⟩

def sub (a b : Q) : Q := a.add b.neg

def mul (a b : Q) : Q := ⟨a.n * b.n, a.d * b.d⟩

/-- Exact division; the divisor's sign moves into the numerator so the
denominator stays positive.  Division by zero yields a dummy (guarded by
every caller, mirroring the IEEE checks done first). -/
def div (a b : Q) : Q :=
  if 0 < b.n then ⟨a.n * b.d, a.d * b.n.toNat⟩
  else if b.n < 0 then ⟨-(a.n * b.d), a.d * (-b.n).toNat⟩
  else ⟨0, 1⟩

def blt (a b : Q) : Bool := decide (a.n * (b.d : ℤ) < b.n * (a.d : ℤ))

def ble (a b : Q) : Bool := decide (a.n * (b.d : ℤ) ≤ b.n * (a.d : ℤ))

def beq (a b : Q) : Bool := decide (a.n * (b.d : ℤ) = b.n * (a.d : ℤ))

/-- `⌊a⌋` (floor division of numerator by positive denominator). -/
def floor (a : Q) : ℤ := Int.fdiv a.n a.d

/-- `⌈a⌉`. -/
def ceil (a : Q) : ℤ := -Int.fdiv (-a.n) a.d

/-- Truncation toward zero, as a C double→integer conversion performs. -/
def trunc (a : Q) : ℤ := if 0 ≤ a.n then Int.fdiv a.n a.d else -Int.fdiv (-a.n) a.d

/-- `⌊a + 1/2⌋`: round-half-up, the rounding used by the decimal digit
generator of the bundled double-conversion library. -/
def roundHalfUp (a : Q) : ℤ := Int.fdiv (2 * a.n + a.d) (2 * a.d)

/-- Scale by a power of ten: `a * 10^k` for `k : ℤ`. -/
def scale10 (a : Q) (k : ℤ) : Q :=
  if 0 ≤ k then ⟨a.n * (10 : ℤ) ^ k.toNat, a.d⟩ else ⟨a.n, a.d * 10 ^ (-k).toNat⟩

end Q

/-- Idealized IEEE double: NaN, ±∞, or an exact rational. -/
inductive Dbl where
  | nan : Dbl
  | posInf : Dbl
  | negInf : Dbl
  | fin (q : Q) : Dbl
deriving DecidableEq, Repr

namespace Dbl

/-- The double holding the integer `i`. -/
def ofInt (i : ℤ) : Dbl := .fin (Q.ofInt i)

/-- `std::isnan`. -/
def isNaN : Dbl → Bool
  | .nan => true
  | _ => false

/-- `std::isinf`. -/
def isInf : Dbl → Bool
  | .posInf => true
  | .negInf => true
  | _ => false

/-- `std::isfinite`. -/
def isFinite : Dbl → Bool
  | .fin _ => true
  | _ => false

/-- IEEE `<` on doubles: false whenever either operand is NaN. -/
def lt : Dbl → Dbl → Bool
  | .nan, _ => false
  | _, .nan => false
  | .negInf, .negInf => false
  | .negInf, _ => true
  | _, .negInf => false
  | .posInf, _ => false
  | .fin _, .posInf => true
  | .fin a, .fin b => a.blt b

/-- IEEE `<=` on doubles: false whenever either operand is NaN. -/
def le : Dbl → Dbl → Bool
  | .nan, _ => false
  | _, .nan => false
  | .negInf, _ => true
  | _, .negInf => false
  | _, .posInf => true
  | .posInf, _ => false
  | .fin a, .fin b => a.ble b

/-- IEEE `==` on doubles: NaN compares unequal to everything (itself included). -/
def beq : Dbl → Dbl → Bool
  | .nan, _ => false
  | _, .nan => false
  | .posInf, .posInf => true
  | .negInf, .negInf => true
  | .fin a, .fin b => a.beq b
  | _, _ => false

/-- IEEE negation. -/
def neg : Dbl → Dbl
  | .nan => .nan
  | .posInf => .negInf
  | .negInf => .posInf
  | .fin q => .fin q.neg

/-- IEEE addition on the idealized domain (finite sums are exact). -/
def add : Dbl → Dbl → Dbl
  | .nan, _ => .nan
  | _, .nan => .nan
  | .posInf, .negInf => .nan
  | .negInf, .posInf => .nan
  | .posInf, _ => .posInf
  | _, .posInf => .posInf
  | .negInf, _ => .negInf
  | _, .negInf => .negInf
  | .fin a, .fin b => .fin (a.add b)

/-- IEEE subtraction, `a - b = a + (-b)`. -/
def sub (a b : Dbl) : Dbl := a.add b.neg

/-- IEEE multiplication on the idealized domain (`∞ · 0 = NaN`). -/
def mul : Dbl → Dbl → Dbl
  | .nan, _ => .nan
  | _, .nan => .nan
  | .posInf, .posInf => .posInf
  | .posInf, .negInf => .negInf
  | .negInf, .posInf => .negInf
  | .negInf, .negInf => .posInf
  | .posInf, .fin q => if q.beq (.ofInt 0) then .nan
      else if (Q.ofInt 0).blt q then .posInf else .negInf
  | .fin q, .posInf => if q.beq (.ofInt 0) then .nan
      else if (Q.ofInt 0).blt q then .posInf else .negInf
  | .negInf, .fin q => if q.beq (.ofInt 0) then .nan
      else if (Q.ofInt 0).blt q then .negInf else .posInf
  | .fin q, .negInf => if q.beq (.ofInt 0) then .nan
      else if (Q.ofInt 0).blt q then .negInf else .posInf
  | .fin a, .fin b => .fin (a.mul b)

/-- IEEE division on the idealized domain.  `0/0` and `±∞/±∞` give NaN, a
nonzero finite numerator over zero gives a signed infinity (signed zeroes
are not modelled), and a finite value over an infinity gives zero. -/
def div : Dbl → Dbl → Dbl
  | .nan, _ => .nan
  | _, .nan => .nan
  | .posInf, .posInf => .nan
  | .posInf, .negInf => .nan
  | .negInf, .posInf => .nan
  | .negInf, .negInf => .nan
  | .posInf, .fin q => if (Q.ofInt 0).ble q then .posInf else .negInf
  | .negInf, .fin q => if (Q.ofInt 0).ble q then .negInf else .posInf
  | .fin _, .posInf => .fin (.ofInt 0)
  | .fin _, .negInf => .fin (.ofInt 0)
  | .fin a, .fin b =>
      if b.beq (.ofInt 0) then
        (if a.beq (.ofInt 0) then .nan else if (Q.ofInt 0).blt a then .posInf else .negInf)
      else .fin (a.div b)

end Dbl

/-- `std::numeric_limits<uint32_t>::max()`. -/
def UINT32_MAX : Nat := 4294967295

/-- `RangeType`: three doubles (begin, step, end). -/
structure RangeT where
  begin_val : Dbl
  step_val : Dbl
  end_val : Dbl
deriving DecidableEq, Repr

namespace RangeT

/-- `RangeType::MAX_RANGE_STEPS` (value.h). -/
def MAX_RANGE_STEPS : Nat := 10000

/-- `RangeType::numValues()` (value.cc).  In the final branch all three
fields are finite and the step is nonzero; `(end-begin)/step` is nonnegative
(the direction checks passed), and in the exact-rational model the
`std::nextafter(·, UINT32_MAX)` nudge followed by truncation toward zero is
the plain floor (the nudge only compensates for floating rounding).  The
double→uint32 store saturates at `UINT32_MAX`. -/
def numValues (r : RangeT) : Nat :=
  if r.begin_val.isNaN || r.end_val.isNaN || r.step_val.isNaN then 0
  else if (if r.step_val.lt (.ofInt 0) then r.begin_val.lt r.end_val
           else r.end_val.lt r.begin_val) then 0
  else if r.begin_val.beq r.end_val || r.step_val.isInf then 1
  else if r.begin_val.isInf || r.end_val.isInf || r.step_val.beq (.ofInt 0) then UINT32_MAX
  else
    match r.begin_val, r.end_val, r.step_val with
    | .fin b, .fin e, .fin s =>
        let num_steps : Nat := min (((e.sub b).div s).floor).toNat UINT32_MAX
        if num_steps = UINT32_MAX then UINT32_MAX else num_steps + 1
    | _, _, _ => 0 -- unreachable: the guards above exclude NaN and infinities

end RangeT

/-- The `numValues` policy exactly as the specification states it: 0 for any
NaN field; 0 on a direction mismatch (`step < 0 ∧ begin < end` or
`step ≥ 0 ∧ begin > end`); 1 when `begin == end` or the step is infinite;
`UINT32_MAX` when a bound is infinite or `step == 0`; otherwise
`nextafter((end-begin)/step, UINT32_MAX)` truncated to uint32 (the floor, in
the exact model), plus one, clamped to `UINT32_MAX`. -/
def numValuesSpec (r : RangeT) : Nat :=
  if r.begin_val.isNaN || r.end_val.isNaN || r.step_val.isNaN then 0
  else if (r.step_val.lt (.ofInt 0) && r.begin_val.lt r.end_val)
       || ((Dbl.ofInt 0).le r.step_val && r.end_val.lt r.begin_val) then 0
  else if r.begin_val.beq r.end_val || r.step_val.isInf then 1
  else if r.begin_val.isInf || r.end_val.isInf || r.step_val.beq (.ofInt 0) then UINT32_MAX
  else
    match r.begin_val, r.end_val, r.step_val with
    | .fin b, .fin e, .fin s =>
        min (min (((e.sub b).div s).floor).toNat UINT32_MAX + 1) UINT32_MAX
    | _, _, _ => 0

/-- For a non-NaN double, `0 <= s` is the complement of `s < 0`. -/
theorem Dbl.zero_le_eq_not_lt_zero (s : Dbl) (hs : s.isNaN = false) :
    (Dbl.ofInt 0).le s = !(s.lt (.ofInt 0)) := by
  cases s with
  | nan => simp [Dbl.isNaN] at hs
  | posInf => rfl
  | negInf => rfl
  | fin q =>
      simp only [Dbl.ofInt, Dbl.le, Dbl.lt, Q.ble, Q.blt, Q.ofInt]
      rcases h : decide ((q.n : ℤ) * 1 < 0 * q.d) with _ | _ <;> simp_all

/-- The source's `num_steps == max ? max : num_steps + 1` store is the
spec's "plus 1, clamped to `UINT32_MAX`". -/
theorem clamp_step_count (k : Nat) :
    (if min k UINT32_MAX = UINT32_MAX then UINT32_MAX else min k UINT32_MAX + 1)
    = min (min k UINT32_MAX + 1) UINT32_MAX := by
  unfold UINT32_MAX
  split <;> omega

/-- C1: `RangeType::numValues()` computes exactly the claimed count policy —
0 on NaN or direction mismatch, 1 for `begin == end` or infinite step,
`UINT32_MAX` for an infinite bound or zero step, and otherwise the truncated
nudged quotient plus one clamped to `UINT32_MAX`; in particular
`Range(1,1,5) ↦ 5`, `Range(5,-1,1) ↦ 5`, `Range(1,0,5) ↦ UINT32_MAX`,
`Range(1,1,1) ↦ 1` and `Range(5,1,1) ↦ 0`. -/
theorem numValues_matches_spec :
    (∀ r : RangeT, r.numValues = numValuesSpec r)
    ∧ RangeT.numValues ⟨.ofInt 1, .ofInt 1, .ofInt 5⟩ = 5
    ∧ RangeT.numValues ⟨.ofInt 5, .ofInt (-1), .ofInt 1⟩ = 5
    ∧ RangeT.numValues ⟨.ofInt 1, .ofInt 0, .ofInt 5⟩ = UINT32_MAX
    ∧ RangeT.numValues ⟨.ofInt 1, .ofInt 1, .ofInt 1⟩ = 1
    ∧ RangeT.numValues ⟨.ofInt 5, .ofInt 1, .ofInt 1⟩ = 0 := by
  refine ⟨?_, by decide, by decide, by decide, by decide, by decide⟩
  intro r
  unfold RangeT.numValues numValuesSpec
  rcases hs : r.step_val.isNaN with _ | _
  · have hdir : (if r.step_val.lt (.ofInt 0) then r.begin_val.lt r.end_val
        else r.end_val.lt r.begin_val)
        = ((r.step_val.lt (.ofInt 0) && r.begin_val.lt r.end_val)
           || ((Dbl.ofInt 0).le r.step_val && r.end_val.lt r.begin_val)) := by
      rw [Dbl.zero_le_eq_not_lt_zero r.step_val hs]
      rcases r.step_val.lt (.ofInt 0) with _ | _ <;> simp
    rw [hdir]
    refine if_congr Iff.rfl rfl (if_congr Iff.rfl rfl (if_congr Iff.rfl rfl
      (if_congr Iff.rfl rfl ?_)))
    cases r.begin_val <;> cases r.end_val <;> cases r.step_val <;>
      first
        | rfl
        | exact clamp_step_count _
  · simp [hs]

/-- `FunctionType`: an opaque closure.  The captured context, expression and
argument list are shared pointers the value model never inspects; they are
collapsed into an identity token (which every comparison below ignores,
exactly as the source ignores the members). -/
structure FunctionT where
  tok : Nat
deriving DecidableEq, Repr

namespace FunctionT

/-- `FunctionType::operator==` (value.h): always false. -/
def feq (_ _ : FunctionT) : Bool := false

/-- `FunctionType::operator!=` (value.h): `!(*this == other)`. -/
def fne (f g : FunctionT) : Bool := !(feq f g)

/-- `FunctionType::operator<` (value.h): always false. -/
def flt (_ _ : FunctionT) : Bool := false

/-- `FunctionType::operator>` (value.h): always false. -/
def fgt (_ _ : FunctionT) : Bool := false

/-- `FunctionType::operator<=` (value.h): always false. -/
def fle (_ _ : FunctionT) : Bool := false

/-- `FunctionType::operator>=` (value.h): always false. -/
def fge (_ _ : FunctionT) : Bool := false

end FunctionT

/-- `Value`: the discriminated union
`boost::variant<boost::blank, bool, double, str_utf8_wrapper, VectorPtr,
RangePtr, FunctionPtr>`.  Strings are modelled as their codepoint sequences
(`String` = `List Char`), vectors as `List Value` (the shared-pointer
indirection carries no observable state of its own). -/
inductive Value where
  | undef : Value
  | boolean (b : Bool) : Value
  | num (d : Dbl) : Value
  | str (s : String) : Value
  | vec (l : List Value) : Value
  | range (r : RangeT) : Value
  | func (f : FunctionT) : Value

/-- `boost::variant::which()`: the discriminant index, in declaration order. -/
def Value.which : Value → Nat
  | .undef => 0
  | .boolean _ => 1
  | .num _ => 2
  | .str _ => 3
  | .vec _ => 4
  | .range _ => 5
  | .func _ => 6

/-- `Value::toDouble()` (value.cc): the held double, or `0.0` for any other
variant. -/
def Value.toDouble : Value → Dbl
  | .num d => d
  | _ => .fin (.ofInt 0)

/-- `Value::getDouble(double&)` (value.cc): succeeds exactly on a Number,
assigning the out-parameter; modelled as an `Option`. -/
def Value.getDouble : Value → Option Dbl
  | .num d => some d
  | _ => none

/-- `Value::getFiniteDouble(double&)` (value.cc): `getDouble` then an
`std::isfinite` check; assigns only when finite. -/
def Value.getFiniteDouble (v : Value) : Option Dbl :=
  match v.getDouble with
  | none => none
  | some d => if d.isFinite then some d else none

/-- `Value::toVector()` (value.cc): the held element list, or the static
empty vector for any other variant. -/
def Value.toVector : Value → List Value
  | .vec l => l
  | _ => []

/-- UTF-8 byte length of one codepoint (what one `char` of the
`std::string` buffer stores 1–4 of). -/
def charBytes (c : Char) : Nat :=
  if c.toNat < 0x80 then 1
  else if c.toNat < 0x800 then 2
  else if c.toNat < 0x10000 then 3
  else 4

/-- `str_utf8_wrapper::size()`: the byte length of the UTF-8 buffer
(`std::string::size`). -/
def utf8Bytes (l : List Char) : Nat := l.foldr (fun c acc => charBytes c + acc) 0

/-- `convert_to_uint32` (value.cc): non-finite doubles and values that
`boost::numeric_cast<uint32_t>` rejects leave the default `UINT32_MAX`.
numeric_cast for double→uint32 truncates toward zero and, accounting for
that rounding, accepts exactly the open interval (-1, 2^32); anything
outside throws `bad_numeric_cast`, which is caught. -/
def convert_to_uint32 (d : Dbl) : Nat :=
  match d with
  | .fin q =>
      if (Q.ofInt (-1)).blt q && q.blt ⟨4294967296, 1⟩ then q.trunc.toNat
      else UINT32_MAX
  | _ => UINT32_MAX

/-- The `bracket_visitor` (value.cc), i.e. `Value::operator[](const Value&)`:
a String indexed by a Number checks the converted index first against the
byte length, then against the cached codepoint count, and copies exactly one
codepoint; a Vector indexed by a Number clones the element in range; a Range
returns begin/step/end for indices 0/1/2; every other combination is
Undefined. -/
def Value.bracket : Value → Value → Value
  | .str s, .num idx =>
      let i := convert_to_uint32 idx
      if i < utf8Bytes s.data then
        if i < s.data.length then .str (String.singleton (s.data.getD i default))
        else .undef
      else .undef
  | .vec l, .num idx =>
      let i := convert_to_uint32 idx
      if i < l.length then l.getD i .undef else .undef
  | .range r, .num idx =>
      match convert_to_uint32 idx with
      | 0 => .num r.begin_val
      | 1 => .num r.step_val
      | 2 => .num r.end_val
      | _ => .undef
  | _, _ => (.undef)

/-- Each codepoint occupies at least one byte, so the codepoint count never
exceeds the byte count (which makes the byte-length check of the
`bracket_visitor` string case redundant). -/
theorem length_le_utf8Bytes (l : List Char) : l.length ≤ utf8Bytes l := by
  induction l with
  | nil => simp [utf8Bytes]
  | cons c cs ih =>
      have hc : 1 ≤ charBytes c := by
        unfold charBytes
        split <;> [omega; split <;> [omega; (split <;> omega)]]
      simp only [utf8Bytes, List.foldr, List.length_cons] at *
      omega

/-- `Q.ble` is the complement of the reversed `Q.blt`. -/
theorem Q.ble_eq_not_blt (a b : Q) : a.ble b = !(b.blt a) := by
  unfold Q.ble Q.blt
  rcases h : decide ((b.n : ℤ) * a.d < a.n * b.d) with _ | _ <;> simp_all

/-- C3 counterexample: the index `-0.5` is a negative Number, yet
`boost::numeric_cast<uint32_t>(-0.5)` truncates to 0 (its range check,
accounting for truncation, accepts the open interval (-1, 2^32)), so
`("abc")[-0.5]` yields `"a"`, not Undefined — refuting the claim that every
negative value converts to `UINT32_MAX`. -/
theorem bracket_negative_fraction_refutes_claim :
    Value.bracket (.str "abc") (.num (.fin ⟨-1, 2⟩)) = .str "a"
    ∧ (⟨-1, 2⟩ : Q).blt (.ofInt 0) = true
    ∧ convert_to_uint32 (.fin ⟨-1, 2⟩) = 0
    ∧ Value.str "a" ≠ .undef :=
  ⟨rfl, rfl, rfl, fun h => Value.noConfusion h⟩

/-- C3 (amended): `s[i]` on a String is Undefined unless `i` is a Number;
a Number index is converted by `convert_to_uint32`, which maps NaN, ±∞,
values ≤ -1 and values ≥ 2^32 to `UINT32_MAX` and truncates values strictly
inside (-1, 2^32) toward zero; the result is the single codepoint at the
converted codepoint position when that is below the codepoint count, else
Undefined — e.g. `"aéb"[1] = "é"`, one whole multi-byte character. -/
theorem bracket_string_codepoint :
    (∀ (s : String) (v : Value), (∀ d, v ≠ Value.num d) →
       Value.bracket (.str s) v = .undef)
    ∧ (convert_to_uint32 .nan = UINT32_MAX ∧ convert_to_uint32 .posInf = UINT32_MAX
       ∧ convert_to_uint32 .negInf = UINT32_MAX)
    ∧ (∀ q : Q, q.ble (.ofInt (-1)) = true → convert_to_uint32 (.fin q) = UINT32_MAX)
    ∧ (∀ q : Q, (⟨4294967296, 1⟩ : Q).ble q = true →
         convert_to_uint32 (.fin q) = UINT32_MAX)
    ∧ (∀ q : Q, (Q.ofInt (-1)).blt q = true → q.blt ⟨4294967296, 1⟩ = true →
         convert_to_uint32 (.fin q) = q.trunc.toNat)
    ∧ (∀ (s : String) (d : Dbl),
         Value.bracket (.str s) (.num d)
           = if convert_to_uint32 d < s.data.length
             then .str (String.singleton (s.data.getD (convert_to_uint32 d) default))
             else .undef)
    ∧ Value.bracket (.str "aéb") (.num (.ofInt 1)) = .str "é" := by
  refine ⟨?_, ⟨rfl, rfl, rfl⟩, ?_, ?_, ?_, ?_, rfl⟩
  · intro s v h
    cases v with
    | num d => exact absurd rfl (h d)
    | undef => rfl
    | boolean b => rfl
    | str t => rfl
    | vec l => rfl
    | range r => rfl
    | func f => rfl
  · intro q h
    have hlt : (Q.ofInt (-1)).blt q = false := by
      rw [Q.ble_eq_not_blt] at h
      rcases hb : (Q.ofInt (-1)).blt q with _ | _
      · rfl
      · rw [hb] at h; exact absurd h (by simp)
    simp [convert_to_uint32, hlt]
  · intro q h
    have hlt : q.blt ⟨4294967296, 1⟩ = false := by
      rw [Q.ble_eq_not_blt] at h
      rcases hb : q.blt ⟨4294967296, 1⟩ with _ | _
      · rfl
      · rw [hb] at h; exact absurd h (by simp)
    simp [convert_to_uint32, hlt]
  · intro q h1 h2
    simp [convert_to_uint32, h1, h2]
  · intro s d
    have hle := length_le_utf8Bytes s.data
    simp only [Value.bracket]
    by_cases h1 : convert_to_uint32 d < utf8Bytes s.data
    · rw [if_pos h1]
    · rw [if_neg h1]
      rw [if_neg (by omega)]

/-- Witness for the hypotheses of `bracket_string_codepoint` at concrete
inputs. -/
theorem bracket_string_codepoint_witness :
    Value.bracket (.str "xy") (.boolean true) = .undef
    ∧ convert_to_uint32 (.fin ⟨-7, 2⟩) = UINT32_MAX
    ∧ convert_to_uint32 (.fin ⟨9999999999, 2⟩) = UINT32_MAX
    ∧ convert_to_uint32 (.fin ⟨5, 2⟩) = (⟨5, 2⟩ : Q).trunc.toNat
    ∧ Value.bracket (.str "xy") (.num (.ofInt 7)) = .undef :=
  ⟨bracket_string_codepoint.1 "xy" (.boolean true) (fun _ h => Value.noConfusion h),
   bracket_string_codepoint.2.2.1 ⟨-7, 2⟩ (by decide),
   bracket_string_codepoint.2.2.2.1 ⟨9999999999, 2⟩ (by decide),
   bracket_string_codepoint.2.2.2.2.1 ⟨5, 2⟩ (by decide) (by decide),
   by rw [bracket_string_codepoint.2.2.2.2.2.1 "xy" (.ofInt 7)]; rfl⟩

mutual

/-- The `plus_visitor` (value.cc), i.e. `Value::operator+`: Number+Number,
elementwise Vector+Vector (stopping at the shorter operand), anything else
Undefined. -/
def Value.plus : Value → Value → Value
  | .num a, .num b => .num (a.add b)
  | .vec l1, .vec l2 => .vec (plusList l1 l2)
  | _, _ => (.undef)

/-- The `for (i < size1 && i < size2)` loop of the plus_visitor vector
case. -/
def plusList : List Value → List Value → List Value
  | a :: as, b :: bs => Value.plus a b :: plusList as bs
  | _, _ => []

end

mutual

/-- The `minus_visitor` (value.cc), i.e. `Value::operator-`: Number-Number,
elementwise Vector-Vector (stopping at the shorter operand), anything else
Undefined. -/
def Value.minus : Value → Value → Value
  | .num a, .num b => .num (a.sub b)
  | .vec l1, .vec l2 => .vec (minusList l1 l2)
  | _, _ => (.undef)

/-- The `for (i < size1 && i < size2)` loop of the minus_visitor vector
case. -/
def minusList : List Value → List Value → List Value
  | a :: as, b :: bs => Value.minus a b :: minusList as bs
  | _, _ => []

end

/-- The loop of `multvecvec` (value.cc): dot product accumulating `r_e`,
failing to Undefined on the first non-Number element of either operand.
The caller guarantees equal lengths (checked in `operator*`). -/
def multvecvecLoop : List Value → List Value → Dbl → Value
  | [], _, r => .num r
  | a :: as, b :: bs, r =>
      match a, b with
      | .num x, .num y => multvecvecLoop as bs (r.add (x.mul y))
      | _, _ => .undef
  | _ :: _, [], r => .num r -- unreachable from operator*: lengths are equal

/-- `multvecvec` (value.cc): `r = 0.0`, then the accumulation loop. -/
def multvecvec (vec1 vec2 : List Value) : Value :=
  multvecvecLoop vec1 vec2 (.fin (.ofInt 0))

/-- The inner `j` loop of `multmatvec` (value.cc): row·vector accumulation,
failing on the first non-Number entry of the row or the vector.  The caller
checks the row and the vector have equal length. -/
def matVecRowLoop : List Value → List Value → Dbl → Option Dbl
  | [], _, acc => some acc
  | r :: rs, v :: vs, acc =>
      match r, v with
      | .num x, .num y => matVecRowLoop rs vs (acc.add (x.mul y))
      | _, _ => none
  | _ :: _, [], acc => some acc -- unreachable: equal lengths checked

/-- The outer `i` loop of `multmatvec` (value.cc): each matrix row must be a
Vector of the vector's length; a failure anywhere discards everything and
returns Undefined. -/
def multmatvecRows (vecv : List Value) : List Value → Option (List Dbl)
  | [] => some []
  | m :: ms =>
      match m with
      | .vec rl =>
          if rl.length = vecv.length then
            match matVecRowLoop rl vecv (.fin (.ofInt 0)) with
            | none => none
            | some r =>
                match multmatvecRows vecv ms with
                | none => none
                | some rest => some (r :: rest)
          else none
      | _ => none

/-- `multmatvec` (value.cc): Matrix * Vector. -/
def multmatvec (matrixvec vectorvec : List Value) : Value :=
  match multmatvecRows vectorvec matrixvec with
  | none => .undef
  | some rs => .vec (rs.map .num)

/-- The inner `j` loop of `multvecmat` (value.cc) for one result column `i`:
every matrix row must be a Vector of length `firstRowSize` with a Number in
column `i`, and every vector entry must be a Number; the first violation
aborts to Undefined (with a diagnostic warning in the source).  The `assert`
of equal lengths holds at every `operator*` call site. -/
def vecMatColLoop : List Value → List Value → Nat → Nat → Dbl → Option Dbl
  | [], _, _, _, acc => some acc
  | v :: vs, m :: ms, frs, i, acc =>
      match m with
      | .vec rl =>
          if rl.length = frs then
            match v with
            | .num x =>
                match rl.getD i .undef with
                | .num y => vecMatColLoop vs ms frs i (acc.add (x.mul y))
                | _ => none
            | _ => none
          else none
      | _ => none
  | _ :: _, [], _, _, acc => some acc -- unreachable: the assert gives equal lengths

/-- The outer `i` loop of `multvecmat` (value.cc), one iteration per column
of the first matrix row. -/
def vecMatCols (vecv matv : List Value) (frs : Nat) : List Nat → Option (List Dbl)
  | [] => some []
  | i :: is =>
      match vecMatColLoop vecv matv frs i (.fin (.ofInt 0)) with
      | none => none
      | some e =>
          match vecMatCols vecv matv frs is with
          | none => none
          | some es => some (e :: es)

/-- `multvecmat` (value.cc): Vector * Matrix; `firstRowSize` is the length
of `matrixvec[0]` viewed as a vector. -/
def multvecmat (vectorvec matrixvec : List Value) : Value :=
  let frs : Nat :=
    match matrixvec with
    | .vec r :: _ => r.length
    | _ => 0
  match vecMatCols vectorvec matrixvec frs (List.range frs) with
  | none => .undef
  | some es => .vec (es.map .num)

/-- The Matrix * Matrix loop of `Value::operator*` (value.cc): each source
row must have the second operand's length, and `multvecmat`'s result for the
row is pushed unconditionally — even when it is Undefined. -/
def matMatRows (mat2 : List Value) : List Value → Option (List Value)
  | [] => some []
  | row :: rows =>
      if row.toVector.length = mat2.length then
        match matMatRows mat2 rows with
        | none => none
        | some rest => some (multvecmat row.toVector mat2 :: rest)
      else none

mutual

/-- `Value::operator*` (value.cc): Number*Number, scalar broadcast over a
Vector on either side, and the Vector*Vector dispatch on the first elements'
types (dot product / vector*matrix / matrix*vector / matrix*matrix), with
every unhandled combination falling through to Undefined. -/
def Value.mult : Value → Value → Value
  | .num a, .num b => .num (a.mul b)
  | n@(.num _), .vec l => .vec (multListNum l n)
  | .vec l, n@(.num _) => .vec (multListNum l n)
  | .vec (a :: as), .vec (b :: bs) =>
      match a, b with
      | .num _, .num _ =>
          if (a :: as).length = (b :: bs).length
          then multvecvec (a :: as) (b :: bs) else .undef
      | .num _, .vec _ =>
          if (a :: as).length = (b :: bs).length
          then multvecmat (a :: as) (b :: bs) else .undef
      | .vec ra, .num _ =>
          if ra.length = (b :: bs).length
          then multmatvec (a :: as) (b :: bs) else .undef
      | .vec ra, .vec _ =>
          if ra.length = (b :: bs).length then
            match matMatRows (b :: bs) (a :: as) with
            | none => .undef
            | some rs => .vec rs
          else .undef
      | _, _ => .undef
  | _, _ => .undef
termination_by a b => sizeOf a + sizeOf b

/-- `multvecnum` (value.cc): each element times the scalar operand (the
element is always the left factor of the recursive multiplication). -/
def multListNum : List Value → Value → List Value
  | [], _ => []
  | a :: as, n => Value.mult a n :: multListNum as n
termination_by l n => sizeOf l + sizeOf n

end

/-- The truncating element loop is `List.zipWith`. -/
theorem plusList_eq_zipWith (l1 l2 : List Value) :
    plusList l1 l2 = List.zipWith Value.plus l1 l2 := by
  induction l1 generalizing l2 with
  | nil => cases l2 <;> rfl
  | cons a as ih =>
      cases l2 with
      | nil => rfl
      | cons b bs => simp [plusList, ih]

/-- The truncating element loop is `List.zipWith` (minus case). -/
theorem minusList_eq_zipWith (l1 l2 : List Value) :
    minusList l1 l2 = List.zipWith Value.minus l1 l2 := by
  induction l1 generalizing l2 with
  | nil => cases l2 <;> rfl
  | cons a as ih =>
      cases l2 with
      | nil => rfl
      | cons b bs => simp [minusList, ih]

/-- C6: `+` and `-` give a Number on Number⊕Number, the elementwise
combination truncated to the shorter operand on Vector⊕Vector, and
Undefined on every other variant combination. -/
theorem plus_minus_dispatch :
    (∀ a b : Dbl, Value.plus (.num a) (.num b) = .num (a.add b))
    ∧ (∀ a b : Dbl, Value.minus (.num a) (.num b) = .num (a.sub b))
    ∧ (∀ l1 l2 : List Value,
         Value.plus (.vec l1) (.vec l2) = .vec (List.zipWith Value.plus l1 l2)
         ∧ (plusList l1 l2).length = min l1.length l2.length)
    ∧ (∀ l1 l2 : List Value,
         Value.minus (.vec l1) (.vec l2) = .vec (List.zipWith Value.minus l1 l2)
         ∧ (minusList l1 l2).length = min l1.length l2.length)
    ∧ (∀ a b : Value, ¬(a.which = 2 ∧ b.which = 2) → ¬(a.which = 4 ∧ b.which = 4) →
         Value.plus a b = .undef ∧ Value.minus a b = .undef) := by
  refine ⟨fun a b => rfl, fun a b => rfl, ?_, ?_, ?_⟩
  · intro l1 l2
    exact ⟨by rw [Value.plus, plusList_eq_zipWith],
           by rw [plusList_eq_zipWith, List.length_zipWith]⟩
  · intro l1 l2
    exact ⟨by rw [Value.minus, minusList_eq_zipWith],
           by rw [minusList_eq_zipWith, List.length_zipWith]⟩
  · intro a b h1 h2
    cases a <;> cases b <;> simp_all [Value.which, Value.plus, Value.minus]

/-- Witness for `plus_minus_dispatch` at a concrete non-arithmetic pair. -/
theorem plus_minus_dispatch_witness :
    Value.plus (.str "a") (.boolean true) = .undef
    ∧ Value.minus (.str "a") (.boolean true) = .undef :=
  plus_minus_dispatch.2.2.2.2 (.str "a") (.boolean true)
    (by decide) (by decide)

/-- `boost::get<double>` succeeds: the element is a Number. -/
def isNum : Value → Bool
  | .num _ => true
  | _ => false

/-- Every element of the list is a Number. -/
def allNums (l : List Value) : Bool := l.all isNum

/-- The dot product as the specification describes it: fold the sum of the
elementwise products of the operands' numeric contents. -/
def dotProdLoop : List Value → List Value → Dbl → Dbl
  | a :: as, b :: bs, acc => dotProdLoop as bs (acc.add ((a.toDouble).mul (b.toDouble)))
  | _, _, acc => acc

/-- The `multvecvec` loop equals the dot product when every element is a
Number, and is Undefined as soon as any element is not. -/
theorem multvecvecLoop_characterization (l1 : List Value) :
    ∀ (l2 : List Value) (acc : Dbl), l1.length = l2.length →
      multvecvecLoop l1 l2 acc
        = if allNums l1 && allNums l2 then .num (dotProdLoop l1 l2 acc) else .undef := by
  induction l1 with
  | nil =>
      intro l2 acc h
      cases l2 with
      | nil => rfl
      | cons b bs => simp at h
  | cons a as ih =>
      intro l2 acc h
      cases l2 with
      | nil => simp at h
      | cons b bs =>
          simp only [List.length_cons, Nat.succ.injEq] at h
          cases a <;> cases b <;>
            simp [multvecvecLoop, allNums, isNum, dotProdLoop, Value.toDouble,
              ih bs _ h, List.all_cons]

/-- C2 counterexample: in the Matrix × Matrix path `operator*` pushes each
row's `multvecmat` result unconditionally, so a ragged second matrix yields
a Vector whose elements are Undefined — not the overall Undefined the claim
requires for a ragged row. -/
theorem mult_matmat_ragged_refutes_claim :
    Value.mult
        (.vec [.vec [.num (.ofInt 1), .num (.ofInt 2)],
               .vec [.num (.ofInt 3), .num (.ofInt 4)]])
        (.vec [.vec [.num (.ofInt 1), .num (.ofInt 2)],
               .vec [.num (.ofInt 3)]])
      = .vec [.undef, .undef]
    ∧ Value.vec [.undef, .undef] ≠ .undef := by
  refine ⟨?_, fun h => Value.noConfusion h⟩
  simp [Value.mult, matMatRows, multvecmat, vecMatCols, vecMatColLoop,
    Value.toVector, List.range_succ]

/-- C2 (amended): for Vector*Vector through `Value::operator*`, a length
mismatch with Number first elements is Undefined; with equal lengths and
Number first elements the result is the dot-product Number exactly when all
elements are Numbers and Undefined otherwise; a ragged Vector*Matrix and a
mismatched Matrix*Vector are Undefined; a 2×2 all-Number matrix times a
2-vector is the expected 2-vector; but in the Matrix*Matrix path a failing
row contributes an Undefined element while the product still returns a
Vector. -/
theorem mult_vecvec_characterization :
    (∀ (x y : Dbl) (as bs : List Value),
       (Value.num x :: as).length ≠ (Value.num y :: bs).length →
       Value.mult (.vec (.num x :: as)) (.vec (.num y :: bs)) = .undef)
    ∧ (∀ (x y : Dbl) (as bs : List Value),
       (Value.num x :: as).length = (Value.num y :: bs).length →
       Value.mult (.vec (.num x :: as)) (.vec (.num y :: bs))
         = if allNums (.num x :: as) && allNums (.num y :: bs)
           then .num (dotProdLoop (.num x :: as) (.num y :: bs) (.fin (.ofInt 0)))
           else .undef)
    ∧ Value.mult (.vec [.num (.ofInt 1), .num (.ofInt 2)])
        (.vec [.vec [.num (.ofInt 1), .num (.ofInt 2)], .vec [.num (.ofInt 3)]])
        = .undef
    ∧ Value.mult
        (.vec [.vec [.num (.ofInt 1), .num (.ofInt 2)],
               .vec [.num (.ofInt 3), .num (.ofInt 4)]])
        (.vec [.num (.ofInt 1), .num (.ofInt 2), .num (.ofInt 3)]) = .undef
    ∧ Value.mult
        (.vec [.vec [.num (.ofInt 1), .num (.ofInt 2)],
               .vec [.num (.ofInt 3), .num (.ofInt 4)]])
        (.vec [.num (.ofInt 5), .num (.ofInt 6)])
        = .vec [.num (.ofInt 17), .num (.ofInt 39)]
    ∧ Value.mult
        (.vec [.vec [.num (.ofInt 1), .num (.ofInt 2)],
               .vec [.num (.ofInt 3), .num (.ofInt 4)]])
        (.vec [.vec [.num (.ofInt 1), .num (.ofInt 2)],
               .vec [.num (.ofInt 3)]])
      = .vec [.undef, .undef] := by
  refine ⟨?_, ?_, ?_, ?_, ?_, ?_⟩
  · intro x y as bs h
    simp only [Value.mult]
    rw [if_neg h]
  · intro x y as bs h
    simp only [Value.mult]
    rw [if_pos h]
    exact multvecvecLoop_characterization _ _ _ h
  · simp [Value.mult, multvecmat, vecMatCols, vecMatColLoop, List.range_succ]
  · simp [Value.mult]
  · simp [Value.mult, multmatvec, multmatvecRows, matVecRowLoop]
    decide
  · simp [Value.mult, matMatRows, multvecmat, vecMatCols, vecMatColLoop,
      Value.toVector, List.range_succ]

/-- Witness for the hypotheses of `mult_vecvec_characterization` at concrete
lengths. -/
theorem mult_vecvec_characterization_witness :
    Value.mult (.vec [.num (.ofInt 1)]) (.vec [.num (.ofInt 2), .num (.ofInt 3)]) = .undef
    ∧ Value.mult (.vec [.num (.ofInt 2)]) (.vec [.num (.ofInt 3)])
        = if allNums [.num (.ofInt 2)] && allNums [.num (.ofInt 3)]
          then .num (dotProdLoop [.num (.ofInt 2)] [.num (.ofInt 3)] (.fin (.ofInt 0)))
          else .undef :=
  ⟨mult_vecvec_characterization.1 (.ofInt 1) (.ofInt 2) [] [.num (.ofInt 3)] (by decide),
   mult_vecvec_characterization.2.1 (.ofInt 2) (.ofInt 3) [] [] rfl⟩

/-- The C++ arithmetic promotion of `bool` to `double` (false↦0.0,
true↦1.0), as performed by the bool/double visitor overloads. -/
def boolToDbl (b : Bool) : Dbl := if b then .fin (.ofInt 1) else .fin (.ofInt 0)

/-- IEEE `>`: the reflection of `<`. -/
def Dbl.gt (a b : Dbl) : Bool := b.lt a

/-- IEEE `>=`: the reflection of `<=`. -/
def Dbl.ge (a b : Dbl) : Bool := b.le a

/-- `std::string::operator<` on the UTF-8 buffer: byte-lexicographic, which
for valid UTF-8 coincides with codepoint-lexicographic order. -/
def strLtChars : List Char → List Char → Bool
  | _, [] => false
  | [], _ :: _ => true
  | c :: cs, d :: ds =>
      if c < d then true else if d < c then false else strLtChars cs ds

/-- `RangeType::operator==` (value.h).  The `this == &other` short-circuit
is dropped: it implies field-identical operands, on which the remaining
conjunction is already true (`n1 ≠ 0` excludes every NaN field). -/
def rangeEq (r1 r2 : RangeT) : Bool :=
  let n1 := r1.numValues
  let n2 := r2.numValues
  if n1 = 0 then decide (n2 = 0)
  else if n2 = 0 then false
  else r1.begin_val.beq r2.begin_val && r1.step_val.beq r2.step_val && decide (n1 = n2)

/-- `RangeType::operator<` (value.h). -/
def rangeLt (r1 r2 : RangeT) : Bool :=
  let n1 := r1.numValues
  let n2 := r2.numValues
  if n1 = 0 then decide (0 < n2)
  else if n2 = 0 then false
  else r1.begin_val.lt r2.begin_val
    || (r1.begin_val.beq r2.begin_val
        && (r1.step_val.lt r2.step_val
            || (r1.step_val.beq r2.step_val && decide (n1 < n2))))

/-- `RangeType::operator<=` (value.h). -/
def rangeLe (r1 r2 : RangeT) : Bool :=
  let n1 := r1.numValues
  let n2 := r2.numValues
  if n1 = 0 then true
  else if n2 = 0 then false
  else r1.begin_val.lt r2.begin_val
    || (r1.begin_val.beq r2.begin_val
        && (r1.step_val.lt r2.step_val
            || (r1.step_val.beq r2.step_val && decide (n1 ≤ n2))))

/-- `RangeType::operator>` (value.h). -/
def rangeGt (r1 r2 : RangeT) : Bool :=
  let n1 := r1.numValues
  let n2 := r2.numValues
  if n2 = 0 then decide (0 < n1)
  else if n1 = 0 then false
  else r1.begin_val.gt r2.begin_val
    || (r1.begin_val.beq r2.begin_val
        && (r1.step_val.gt r2.step_val
            || (r1.step_val.beq r2.step_val && decide (n1 > n2))))

/-- `RangeType::operator>=` (value.h). -/
def rangeGe (r1 r2 : RangeT) : Bool :=
  let n1 := r1.numValues
  let n2 := r2.numValues
  if n2 = 0 then true
  else if n1 = 0 then false
  else r1.begin_val.gt r2.begin_val
    || (r1.begin_val.beq r2.begin_val
        && (r1.step_val.gt r2.step_val
            || (r1.step_val.beq r2.step_val && decide (n1 ≥ n2))))

mutual

/-- The `equals_visitor` (value.cc), i.e. `Value::operator==`: same-variant
operands use the variant's own `==` (`boost::blank`s are equal, vectors
compare elementwise, ranges by `RangeType::operator==`, functions never
equal), the Bool/Number mixes promote the bool to 0.0/1.0, and every other
heterogeneous pair is unequal. -/
def Value.beq : Value → Value → Bool
  | .undef, .undef => true
  | .boolean a, .boolean b => a == b
  | .num a, .num b => a.beq b
  | .boolean a, .num b => (boolToDbl a).beq b
  | .num a, .boolean b => a.beq (boolToDbl b)
  | .str s, .str t => s == t
  | .vec l1, .vec l2 => eqList l1 l2
  | .range r1, .range r2 => rangeEq r1 r2
  | .func f, .func g => FunctionT.feq f g
  | _, _ => false

/-- `std::vector<Value>::operator==`: equal sizes and elementwise equal. -/
def eqList : List Value → List Value → Bool
  | [], [] => true
  | a :: as, b :: bs => Value.beq a b && eqList as bs
  | _, _ => false

end

/-- `Value::operator!=` (value.cc): `!(*this == v)`. -/
def Value.bne (a b : Value) : Bool := !(Value.beq a b)

mutual

/-- The `less_visitor` (value.cc, `DEFINE_VISITOR(less_visitor, <)`), i.e.
`Value::operator<`: same-variant operands use the variant's own `<`
(`boost::blank < boost::blank` is false, bools as 0/1, strings and vectors
lexicographically, ranges by `RangeType::operator<`, functions never
ordered), Bool/Number mixes promote the bool, anything else is false. -/
def Value.blt : Value → Value → Bool
  | .undef, .undef => false
  | .boolean a, .boolean b => !a && b
  | .num a, .num b => a.lt b
  | .boolean a, .num b => (boolToDbl a).lt b
  | .num a, .boolean b => a.lt (boolToDbl b)
  | .str s, .str t => strLtChars s.data t.data
  | .vec l1, .vec l2 => ltList l1 l2
  | .range r1, .range r2 => rangeLt r1 r2
  | .func f, .func g => FunctionT.flt f g
  | _, _ => false
termination_by a b => sizeOf a + sizeOf b

/-- `std::vector<Value>::operator<`: `std::lexicographical_compare` with the
element `<` applied in both directions. -/
def ltList : List Value → List Value → Bool
  | _, [] => false
  | [], _ :: _ => true
  | a :: as, b :: bs =>
      if Value.blt a b then true
      else if Value.blt b a then false
      else ltList as bs
termination_by l1 l2 => sizeOf l1 + sizeOf l2

end

/-- The `greater_visitor` (value.cc), i.e. `Value::operator>`: same shape as
`<`, with each same-variant case delegating to the variant's own `>`
(std::string and std::vector define `a > b` as `b < a`; `RangeType` has its
own `operator>`). -/
def Value.bgt : Value → Value → Bool
  | .undef, .undef => false
  | .boolean a, .boolean b => a && !b
  | .num a, .num b => a.gt b
  | .boolean a, .num b => (boolToDbl a).gt b
  | .num a, .boolean b => a.gt (boolToDbl b)
  | .str s, .str t => strLtChars t.data s.data
  | .vec l1, .vec l2 => ltList l2 l1
  | .range r1, .range r2 => rangeGt r1 r2
  | .func f, .func g => FunctionT.fgt f g
  | _, _ => false

/-- The `lessequal_visitor` (value.cc), i.e. `Value::operator<=`:
`boost::blank <= boost::blank` is true, bools as 0/1, std::string and
std::vector define `a <= b` as `!(b < a)`, ranges by
`RangeType::operator<=`, functions never ordered, Bool/Number promoted,
anything else false. -/
def Value.ble : Value → Value → Bool
  | .undef, .undef => true
  | .boolean a, .boolean b => !a || b
  | .num a, .num b => a.le b
  | .boolean a, .num b => (boolToDbl a).le b
  | .num a, .boolean b => a.le (boolToDbl b)
  | .str s, .str t => !(strLtChars t.data s.data)
  | .vec l1, .vec l2 => !(ltList l2 l1)
  | .range r1, .range r2 => rangeLe r1 r2
  | .func f, .func g => FunctionT.fle f g
  | _, _ => false

/-- The `greaterequal_visitor` (value.cc), i.e. `Value::operator>=`: the
mirror of `<=`. -/
def Value.bge : Value → Value → Bool
  | .undef, .undef => true
  | .boolean a, .boolean b => a || !b
  | .num a, .num b => a.ge b
  | .boolean a, .num b => (boolToDbl a).ge b
  | .num a, .boolean b => a.ge (boolToDbl b)
  | .str s, .str t => !(strLtChars s.data t.data)
  | .vec l1, .vec l2 => !(ltList l1 l2)
  | .range r1, .range r2 => rangeGe r1 r2
  | .func f, .func g => FunctionT.fge f g
  | _, _ => false

/-- C7: heterogeneous-variant comparisons are all false except the
Bool/Number mixes, which promote the bool to 0.0/1.0 and compare
numerically; same-variant comparisons delegate to the variant's own
comparison; `Value(true) == Value(1.0)` and `Value("a") != Value(1.0)`. -/
theorem value_comparison_dispatch :
    (∀ a b : Value, a.which ≠ b.which →
       ¬(a.which = 1 ∧ b.which = 2) → ¬(a.which = 2 ∧ b.which = 1) →
       Value.beq a b = false ∧ Value.blt a b = false ∧ Value.ble a b = false
       ∧ Value.bgt a b = false ∧ Value.bge a b = false)
    ∧ (∀ (x : Bool) (d : Dbl),
         Value.beq (.boolean x) (.num d) = (boolToDbl x).beq d
         ∧ Value.beq (.num d) (.boolean x) = d.beq (boolToDbl x)
         ∧ Value.blt (.boolean x) (.num d) = (boolToDbl x).lt d
         ∧ Value.ble (.boolean x) (.num d) = (boolToDbl x).le d
         ∧ Value.bgt (.boolean x) (.num d) = (boolToDbl x).gt d
         ∧ Value.bge (.boolean x) (.num d) = (boolToDbl x).ge d)
    ∧ (∀ d1 d2 : Dbl, Value.beq (.num d1) (.num d2) = d1.beq d2
         ∧ Value.blt (.num d1) (.num d2) = d1.lt d2)
    ∧ (∀ s t : String, Value.beq (.str s) (.str t) = (s == t)
         ∧ Value.blt (.str s) (.str t) = strLtChars s.data t.data)
    ∧ (∀ l1 l2 : List Value, Value.beq (.vec l1) (.vec l2) = eqList l1 l2
         ∧ Value.blt (.vec l1) (.vec l2) = ltList l1 l2)
    ∧ (∀ r1 r2 : RangeT, Value.beq (.range r1) (.range r2) = rangeEq r1 r2
         ∧ Value.blt (.range r1) (.range r2) = rangeLt r1 r2)
    ∧ (∀ f g : FunctionT, Value.beq (.func f) (.func g) = FunctionT.feq f g)
    ∧ (Value.beq .undef .undef = true ∧ Value.blt .undef .undef = false
         ∧ Value.ble .undef .undef = true)
    ∧ Value.beq (.boolean true) (.num (.ofInt 1)) = true
    ∧ Value.beq (.str "a") (.num (.ofInt 1)) = false := by
  refine ⟨?_, fun x d => ⟨rfl, rfl, ?_, rfl, rfl, rfl⟩,
    fun d1 d2 => ⟨rfl, ?_⟩, fun s t => ⟨rfl, ?_⟩, fun l1 l2 => ⟨rfl, ?_⟩,
    fun r1 r2 => ⟨rfl, ?_⟩, fun f g => rfl, ⟨rfl, ?_, rfl⟩, rfl, rfl⟩
  · intro a b hne h1 h2
    cases a <;> cases b <;>
      simp_all [Value.which, Value.beq, Value.blt, Value.ble, Value.bgt, Value.bge]
  all_goals simp [Value.blt]

/-- Witness for the hypotheses of `value_comparison_dispatch` at a concrete
heterogeneous pair. -/
theorem value_comparison_dispatch_witness :
    Value.beq (.str "a") (.boolean true) = false
    ∧ Value.blt (.str "a") (.boolean true) = false
    ∧ Value.ble (.str "a") (.boolean true) = false
    ∧ Value.bgt (.str "a") (.boolean true) = false
    ∧ Value.bge (.str "a") (.boolean true) = false :=
  value_comparison_dispatch.1 (.str "a") (.boolean true)
    (by decide) (by decide) (by decide)

/-- C8: every comparison between Function values — a Function compared with
itself included — is false, both at the `FunctionType` operator level and
through `Value`'s comparison visitors; consequently `!=` is always true. -/
theorem function_comparisons_always_false :
    (∀ f g : FunctionT,
       FunctionT.feq f g = false ∧ FunctionT.flt f g = false
       ∧ FunctionT.fle f g = false ∧ FunctionT.fgt f g = false
       ∧ FunctionT.fge f g = false ∧ FunctionT.fne f g = true)
    ∧ (∀ f g : FunctionT,
       Value.beq (.func f) (.func g) = false
       ∧ Value.blt (.func f) (.func g) = false
       ∧ Value.ble (.func f) (.func g) = false
       ∧ Value.bgt (.func f) (.func g) = false
       ∧ Value.bge (.func f) (.func g) = false
       ∧ Value.bne (.func f) (.func g) = true)
    ∧ (∀ f : FunctionT, Value.beq (.func f) (.func f) = false) := by
  refine ⟨fun f g => ⟨rfl, rfl, rfl, rfl, rfl, rfl⟩,
    fun f g => ⟨rfl, ?_, rfl, rfl, rfl, rfl⟩, fun f => rfl⟩
  simp [Value.blt, FunctionT.flt]

/-- The element is a Vector (`v.type() == ValueType::VECTOR`). -/
def isVec : Value → Bool
  | .vec _ => true
  | _ => false

/-- `Value::VectorPtr::flatten` (value.cc): rebuild the vector in order,
splicing in each Vector element's own elements and keeping every other
element as itself (the source preallocates via the same accumulate-of-sizes
the length theorem states). -/
def flattenVec : List Value → List Value
  | [] => []
  | .vec l' :: rest => l' ++ flattenVec rest
  | v :: rest => v :: flattenVec rest

/-- C9: `flatten` concatenates, in order, each Vector element's contents and
keeps non-Vector elements; the result's length is the sum over elements of
(vector length or 1); a vector with no Vector element is unchanged; and a
mixed example flattens as expected. -/
theorem flatten_characterization :
    (∀ l : List Value,
       flattenVec l
         = l.foldr (fun v acc =>
             (match v with | .vec l' => l' | v' => [v']) ++ acc) [])
    ∧ (∀ l : List Value,
       (flattenVec l).length
         = (l.map (fun v => match v with | .vec l' => l'.length | _ => 1)).sum)
    ∧ (∀ l : List Value, (∀ v ∈ l, isVec v = false) → flattenVec l = l)
    ∧ flattenVec [.num (.ofInt 1), .vec [.num (.ofInt 2), .num (.ofInt 3)],
        .num (.ofInt 4)]
      = [.num (.ofInt 1), .num (.ofInt 2), .num (.ofInt 3), .num (.ofInt 4)] := by
  refine ⟨?_, ?_, ?_, rfl⟩
  · intro l
    induction l with
    | nil => rfl
    | cons v rest ih => cases v <;> simp [flattenVec, ih]
  · intro l
    induction l with
    | nil => rfl
    | cons v rest ih => cases v <;> simp [flattenVec, ih] <;> omega
  · intro l h
    induction l with
    | nil => rfl
    | cons v rest ih =>
        have hv := h v (List.mem_cons_self v rest)
        have hrest := ih (fun w hw => h w (List.mem_cons_of_mem v hw))
        cases v <;> simp_all [isVec, flattenVec]

/-- Witness for the hypothesis of `flatten_characterization` (the no-Vector
case) at a concrete list. -/
theorem flatten_characterization_witness :
    flattenVec [.num (.ofInt 1), .str "x"] = [.num (.ofInt 1), .str "x"] :=
  flatten_characterization.2.2.1 [.num (.ofInt 1), .str "x"]
    (by
      intro v hv
      simp only [List.mem_cons, List.not_mem_nil, or_false] at hv
      rcases hv with rfl | rfl <;> rfl)

/-- `Value::getVec2` (value.cc): requires a length-2 Vector; reads both
doubles into locals (finite ones when `ignoreInfinite`), assigning the
out-parameters only when both succeed.  Returns (valid, x, y). -/
def Value.getVec2 (v : Value) (x y : Dbl) (ignoreInfinite : Bool) :
    Bool × Dbl × Dbl :=
  match v with
  | .vec l =>
      if l.length ≠ 2 then (false, x, y)
      else
        match (if ignoreInfinite then (l.getD 0 .undef).getFiniteDouble
               else (l.getD 0 .undef).getDouble),
              (if ignoreInfinite then (l.getD 1 .undef).getFiniteDouble
               else (l.getD 1 .undef).getDouble) with
        | some rx, some ry => (true, rx, ry)
        | _, _ => (false, x, y)
  | _ => (false, x, y)

/-- `Value::getVec3(x,y,z,defaultval)` (value.cc): a length-2 Vector calls
`getVec2`, ignores its boolean result, stores the default into z and reports
success; a length-3 Vector succeeds only when all three elements are Numbers
(assigning left to right as `&&` short-circuits); any other value or length
fails.  Returns (valid, x, y, z). -/
def Value.getVec3d (v : Value) (x y z defaultval : Dbl) :
    Bool × Dbl × Dbl × Dbl :=
  match v with
  | .vec l =>
      if l.length = 2 then
        match v.getVec2 x y false with
        | (_, x', y') => (true, x', y', defaultval)
      else if l.length ≠ 3 then (false, x, y, z)
      else
        match (l.getD 0 .undef).getDouble with
        | none => (false, x, y, z)
        | some x' =>
            match (l.getD 1 .undef).getDouble with
            | none => (false, x', y, z)
            | some y' =>
                match (l.getD 2 .undef).getDouble with
                | none => (false, x', y', z)
                | some z' => (true, x', y', z')
  | _ => (false, x, y, z)

/-- A Number element is exactly one whose `getDouble` succeeds. -/
theorem isNum_eq_isSome_getDouble (v : Value) : isNum v = v.getDouble.isSome := by
  cases v <;> rfl

/-- C10: `getVec3` with a default returns true for every length-2 Vector,
setting z to the default and leaving x and y unassigned when the elements
are not both Numbers (the `getVec2` result is ignored); a length-3 Vector
succeeds exactly when all three elements are Numbers; any other value or
length fails. -/
theorem getVec3_default_characterization :
    (∀ (l : List Value) (x y z d : Dbl), l.length = 2 →
       (Value.getVec3d (.vec l) x y z d).1 = true
       ∧ (Value.getVec3d (.vec l) x y z d).2.2.2 = d)
    ∧ (∀ (l : List Value) (x y z d : Dbl), l.length = 2 →
       ¬(isNum (l.getD 0 .undef) = true ∧ isNum (l.getD 1 .undef) = true) →
       Value.getVec3d (.vec l) x y z d = (true, x, y, d))
    ∧ (∀ (l : List Value) (x y z d : Dbl), l.length = 3 →
       ((Value.getVec3d (.vec l) x y z d).1 = true ↔ allNums l = true))
    ∧ (∀ (v : Value) (x y z d : Dbl), isVec v = false →
       (Value.getVec3d v x y z d).1 = false)
    ∧ (∀ (l : List Value) (x y z d : Dbl), l.length ≠ 2 → l.length ≠ 3 →
       (Value.getVec3d (.vec l) x y z d).1 = false) := by
  refine ⟨?_, ?_, ?_, ?_, ?_⟩
  · intro l x y z d h
    simp only [Value.getVec3d, h]
    exact ⟨rfl, rfl⟩
  · intro l x y z d h hnum
    simp only [Value.getVec3d, h, if_pos]
    simp only [Value.getVec2, h]
    rw [isNum_eq_isSome_getDouble, isNum_eq_isSome_getDouble] at hnum
    rcases h0 : (l.getD 0 .undef).getDouble with _ | x'
    · simp [h0]
    · rcases h1 : (l.getD 1 .undef).getDouble with _ | y'
      · simp [h0, h1]
      · rw [h0, h1] at hnum
        simp at hnum
  · intro l x y z d h
    match l, h with
    | [a, b, c], _ =>
        simp only [Value.getVec3d, List.length_cons, List.length_nil,
          List.getD_cons_zero, List.getD_cons_succ]
        rw [if_neg (by norm_num), if_neg (by norm_num)]
        rw [allNums, List.all_cons, List.all_cons, List.all_cons, List.all_nil,
          isNum_eq_isSome_getDouble, isNum_eq_isSome_getDouble,
          isNum_eq_isSome_getDouble]
        rcases ha : a.getDouble with _ | x' <;>
          rcases hb : b.getDouble with _ | y' <;>
          rcases hc : c.getDouble with _ | z' <;> simp
  · intro v x y z d h
    cases v <;> simp_all [isVec, Value.getVec3d]
  · intro l x y z d h2 h3
    simp only [Value.getVec3d]
    rw [if_neg h2, if_pos h3]

/-- Witness for the hypotheses of `getVec3_default_characterization` at
concrete inputs: a length-2 vector of strings still "succeeds" with x and y
untouched, a length-3 all-Number vector succeeds, a Number fails, and a
length-1 vector fails. -/
theorem getVec3_default_characterization_witness :
    Value.getVec3d (.vec [.str "a", .str "b"]) (.ofInt 7) (.ofInt 8) (.ofInt 9)
      (.ofInt 42) = (true, .ofInt 7, .ofInt 8, .ofInt 42)
    ∧ ((Value.getVec3d (.vec [.num (.ofInt 1), .num (.ofInt 2), .num (.ofInt 3)])
        (.ofInt 0) (.ofInt 0) (.ofInt 0) (.ofInt 42)).1 = true
       ↔ allNums [.num (.ofInt 1), .num (.ofInt 2), .num (.ofInt 3)] = true)
    ∧ (Value.getVec3d (.num (.ofInt 5)) (.ofInt 0) (.ofInt 0) (.ofInt 0)
        (.ofInt 42)).1 = false
    ∧ (Value.getVec3d (.vec [.num (.ofInt 1)]) (.ofInt 0) (.ofInt 0) (.ofInt 0)
        (.ofInt 42)).1 = false :=
  ⟨getVec3_default_characterization.2.1 [.str "a", .str "b"] _ _ _ _ rfl
      (by intro h; exact absurd h.1 (by decide)),
   getVec3_default_characterization.2.2.1
      [.num (.ofInt 1), .num (.ofInt 2), .num (.ofInt 3)] _ _ _ _ rfl,
   getVec3_default_characterization.2.2.2.1 (.num (.ofInt 5)) _ _ _ _ (by decide),
   getVec3_default_characterization.2.2.2.2 [.num (.ofInt 1)] _ _ _ _
      (by decide) (by decide)⟩

/-- Length of the maximal run of '0' characters at the end of the list. -/
def trailingZeroRun (l : List Char) : Nat :=
  (l.reverse.takeWhile (· = '0')).length

/-- `trimTrailingZeroes` / `trimTrailingZeroesHelper` (value.cc) as a
function on the buffer contents.  No decimal point: unchanged.  Otherwise
the scan starts just left of the exponent marker (or of the terminator) and
walks left over '0' characters, stopping at the decimal point; with no zero
found the buffer is unchanged; otherwise the exponent suffix (or the
terminator) is moved left onto the first zero — or onto the decimal point
itself when the whole fraction was zeros. -/
def trimTrailingZeroes (s : List Char) : List Char :=
  match s.findIdx? (· = '.') with
  | none => s
  | some dPos =>
      match s.findIdx? (· = 'e') with
      | some ePos =>
          if ePos ≤ dPos then s
          else
            let m := s.take ePos
            let ex := s.drop ePos
            let k := min (trailingZeroRun m) (m.length - dPos - 1)
            if k = 0 then s
            else if m.length - k = dPos + 1 then s.take dPos ++ ex
            else m.take (m.length - k) ++ ex
      | none =>
          let k := min (trailingZeroRun s) (s.length - dPos - 1)
          if k = 0 then s
          else if s.length - k = dPos + 1 then s.take dPos
          else s.take (s.length - k)

/-- Modelled from the spec: the decimal-point position of a positive
rational — the `decimal_point` the bundled double-conversion library's
digit generator reports, with `10^(d-1) ≤ q < 10^d` — computed from the
digit count of `⌊q⌋` (q ≥ 1) or of `⌈1/q⌉ - 1` (q < 1). -/
def decPointOf (q : Q) : ℤ :=
  if (Q.ofInt 1).ble q then ((Nat.toDigits 10 q.floor.toNat).length : ℤ)
  else 1 - ((Nat.toDigits 10 ((Q.ceil ⟨(q.d : ℤ), q.n.toNat⟩).toNat - 1)).length : ℤ)

/-- Modelled from the spec: the 6-significant-digit decimal mantissa of a
positive rational with its decimal-point position (`DoubleToAscii` in
PRECISION mode, round-half-up), renormalized when rounding carries into a
seventh digit. -/
def sigDigits6 (q : Q) : Nat × ℤ :=
  let d := decPointOf q
  let n := (q.scale10 (6 - d)).roundHalfUp.toNat
  if n = 1000000 then (100000, d + 1) else (n, d)

/-- Modelled from the spec: `DoubleToStringConverter::ToPrecision` at
precision 6 for a positive value, with the converter parameters value.cc
passes (`max_leading_padding_zeroes = 5`, `max_trailing_padding_zeroes = 0`,
exponent character 'e', positive exponent sign emitted): fixed notation for
a decimal point in [-5, 6], exponential notation otherwise. -/
def toPrecision6Pos (q : Q) : List Char :=
  let nd := sigDigits6 q
  let digits := Nat.toDigits 10 nd.1
  let d := nd.2
  if d < -5 ∨ 6 < d then
    digits.take 1 ++ ['.'] ++ digits.drop 1 ++ ['e']
      ++ (if d - 1 < 0 then '-' :: Nat.toDigits 10 (1 - d).toNat
          else '+' :: Nat.toDigits 10 (d - 1).toNat)
  else if d ≤ 0 then ['0', '.'] ++ List.replicate (-d).toNat '0' ++ digits
  else if d = 6 then digits
  else digits.take d.toNat ++ ['.'] ++ digits.drop d.toNat

/-- Modelled from the spec: `ToPrecision(value, 6)` for any finite value —
zero renders as "0.00000" (trimmed to "0" later), negatives get a leading
minus. -/
def toPrecision6 (q : Q) : List Char :=
  if q.beq (.ofInt 0) then ['0', '.', '0', '0', '0', '0', '0']
  else if q.blt (.ofInt 0) then '-' :: toPrecision6Pos ⟨-q.n, q.d⟩
  else toPrecision6Pos q

/-- `HandleSpecialValues` and `DoubleConvert` (value.cc): infinities and NaN
are detected first (`Double::IsSpecial`) and render as "inf"/"-inf"/"nan";
every finite value goes through the precision-6 conversion and then
`trimTrailingZeroes`. -/
def DoubleConvert (d : Dbl) : String :=
  match d with
  | .posInf => "inf"
  | .negInf => "-inf"
  | .nan => "nan"
  | .fin q => ⟨trimTrailingZeroes (toPrecision6 q)⟩

/-- The `tostring_visitor` double overload (value.cc), the Number case of
`Value::toString`. -/
def toStringNumber (d : Dbl) : String := DoubleConvert d

/-- C4: `Value::toString` of a Number renders +∞ as "inf", −∞ as "-inf" and
NaN as "nan", checked before the general conversion; every finite value is
the 6-significant-digit conversion followed by trailing-zero trimming; 1.0
renders "1", 0.1 renders "0.1"; the trimmer relocates a present exponent
marker, turning "1.500000e+10" into "1.5e+10", as the full pipeline also
shows on 1.5e10. -/
theorem tostring_number_formatting :
    toStringNumber .posInf = "inf"
    ∧ toStringNumber .negInf = "-inf"
    ∧ toStringNumber .nan = "nan"
    ∧ (∀ q : Q, toStringNumber (.fin q) = ⟨trimTrailingZeroes (toPrecision6 q)⟩)
    ∧ toStringNumber (.fin (.ofInt 1)) = "1"
    ∧ toStringNumber (.fin ⟨1, 10⟩) = "0.1"
    ∧ trimTrailingZeroes "1.500000e+10".data = "1.5e+10".data
    ∧ toStringNumber (.fin (.ofInt 15000000000)) = "1.5e+10"
    ∧ toStringNumber (.fin (.ofInt 0)) = "0" :=
  ⟨rfl, rfl, rfl, fun _ => rfl, by decide, by decide, by decide, by decide, by decide⟩

/-- glib's `UNICODE_VALID` (`g_unichar_validate`): strictly below 0x110000
and not a UTF-16 surrogate. -/
def unicodeValid (c : Nat) : Bool :=
  decide (c < 1114112) && !(decide (55296 ≤ c) && decide (c ≤ 57343))

/-- The chr_visitor double overload (value.cc): a positive value is stored
into a `gunichar` (truncation); valid nonzero codepoints give that single
character, everything else the empty string.  (The non-finite cases model
the guard `v > 0` failing or never being reached through `chrString`.) -/
def chrDouble (d : Dbl) : String :=
  match d with
  | .fin q =>
      if (Q.ofInt 0).blt q then
        if unicodeValid q.trunc.toNat && decide (q.trunc.toNat ≠ 0)
        then String.singleton (Char.ofNat q.trunc.toNat) else ""
      else ""
  | _ => ""

/-- The value sequence a `RangeType` iterator walk produces
(`begin()`/`operator++`/`end()`, value.cc): `val` starts at `begin_val` and
is recomputed as `begin + step * i_step` after each pre-increment; the
iterator is immediately at end when the step is 0 or any field is NaN, and
otherwise ends once `i_step` reaches `numValues()`. -/
def RangeT.values (r : RangeT) : List Dbl :=
  if r.step_val.beq (.ofInt 0) then []
  else if r.begin_val.isNaN || r.end_val.isNaN || r.step_val.isNaN then []
  else (List.range r.numValues).map fun (i : Nat) =>
    if i = 0 then r.begin_val
    else r.begin_val.add (r.step_val.mul (.fin (.ofInt (Int.ofNat i))))

/-- The `stream <<` concatenation of the chr_visitor loops. -/
def joinStrings : List String → String
  | [] => ""
  | s :: rest => s ++ joinStrings rest

/-- The chr_visitor Range overload (value.cc): `numValues() >=
MAX_RANGE_STEPS` warns (PRINTB) and yields the empty string; otherwise the
chr strings of the iterated values are concatenated.  Returns
(output, warned). -/
def rangeChrString (r : RangeT) : String × Bool :=
  if RangeT.MAX_RANGE_STEPS ≤ r.numValues then ("", true)
  else (joinStrings (r.values.map chrDouble), false)

mutual

/-- `Value::chrString` (value.cc): Numbers via the double overload, Vectors
concatenate their elements' chr strings, Ranges via the guarded iteration,
every other variant gives the empty string. -/
def Value.chrString : Value → String
  | .num d => chrDouble d
  | .vec l => chrList l
  | .range r => (rangeChrString r).1
  | _ => ""

/-- The chr_visitor Vector loop. -/
def chrList : List Value → String
  | [] => ""
  | v :: vs => Value.chrString v ++ chrList vs

end

/-- A concatenation starting with a nonempty string is nonempty. -/
theorem joinStrings_cons_ne_empty (s : String) (l : List String)
    (h : s.length ≠ 0) : joinStrings (s :: l) ≠ "" := by
  intro he
  have hlen := congrArg String.length he
  simp only [joinStrings, String.length_append] at hlen
  simp at hlen
  omega

/-- C5 counterexample: `Range(1,1,10000)` produces exactly 10000 values —
not *more than* `MAX_RANGE_STEPS` — yet `chrString` already warns and
returns the empty string (the source guard is `steps >= MAX_RANGE_STEPS`),
while the claimed concatenation of the produced values' chr strings is
nonempty. -/
theorem range_chrstring_at_10000_refutes_claim :
    RangeT.numValues ⟨.ofInt 1, .ofInt 1, .ofInt 10000⟩ = 10000
    ∧ ¬(10000 > RangeT.MAX_RANGE_STEPS)
    ∧ rangeChrString ⟨.ofInt 1, .ofInt 1, .ofInt 10000⟩ = ("", true)
    ∧ joinStrings
        ((RangeT.values ⟨.ofInt 1, .ofInt 1, .ofInt 10000⟩).map chrDouble) ≠ "" := by
  refine ⟨by decide, by decide, rfl, ?_⟩
  have h1 : RangeT.values ⟨.ofInt 1, .ofInt 1, .ofInt 10000⟩
      = (List.range 10000).map (fun (i : Nat) =>
          if i = 0 then Dbl.ofInt 1
          else (Dbl.ofInt 1).add ((Dbl.ofInt 1).mul (.fin (.ofInt (Int.ofNat i))))) := by
    unfold RangeT.values
    rw [if_neg (by decide), if_neg (by decide),
      show RangeT.numValues ⟨.ofInt 1, .ofInt 1, .ofInt 10000⟩ = 10000 from by decide]
  rw [h1, show (10000 : Nat) = 9999 + 1 from rfl, List.range_succ_eq_map,
    List.map_cons, List.map_cons]
  exact joinStrings_cons_ne_empty _ _ (by decide)

/-- C5 (amended): `chrString` on a Range concatenates, in iteration order,
the chr string of each value the range produces, and instead warns and
returns the empty string when the range would produce `MAX_RANGE_STEPS` =
10000 *or more* values; `Range(1,1,3)` gives the codepoints 1,2,3. -/
theorem range_chrstring_characterization :
    (∀ r : RangeT,
       rangeChrString r
         = if RangeT.MAX_RANGE_STEPS ≤ r.numValues then ("", true)
           else (joinStrings (r.values.map chrDouble), false))
    ∧ (∀ r : RangeT, Value.chrString (.range r) = (rangeChrString r).1)
    ∧ rangeChrString ⟨.ofInt 1, .ofInt 1, .ofInt 3⟩ = ("\x01\x02\x03", false)
    ∧ rangeChrString ⟨.ofInt 1, .ofInt 0, .ofInt 5⟩ = ("", true) := by
  refine ⟨fun r => rfl, fun r => ?_, by decide, by decide⟩
  simp [Value.chrString]

end OpenSCAD
